import Mathlib

/-!
Verification of the ChatSphere storage and route layers.

This file gives a shallow embedding of the data model of `shared/schema.ts`,
of the storage operations of `DatabaseStorage` (`storage.ts`), and of the
Express route handlers of `server/routes.ts`, and proves or refutes the
frozen claims about them.

Modelling conventions:
 - each Postgres table is a Lean `List` of rows, in insertion order;
 - `varchar` columns are `String`, nullable varchars `Option String`,
   timestamps `Nat`, booleans `Bool`;
 - a Drizzle `select ... where ...` is a `List.filter`, an `innerJoin` a
   `List.flatMap` over the matching rows of the joined table, a `leftJoin`
   keeps a `none` row when no join partner exists;
 - `ORDER BY` carries no tie-break guarantee in SQL, so a query whose
   result order matters is embedded as a predicate on output lists: any
   permutation of the result set that is sorted by the ordering key is a
   possible result;
 - inserted primary keys (`gen_random_uuid()`) are passed in as explicit
   `fresh` arguments, and the database clock as an explicit `now` argument.
-/

/-- Row of the `users` table (`shared/schema.ts`). -/
structure User where
  id : String
  email : Option String
  firstName : Option String
  lastName : Option String
  profileImageUrl : Option String
  isOnline : Bool
  lastSeen : Nat
  createdAt : Nat
  updatedAt : Nat
  deriving DecidableEq

/-- Row of the `conversations` table (`shared/schema.ts`). -/
structure Conversation where
  id : String
  name : Option String
  isGroup : Bool
  createdAt : Nat
  updatedAt : Nat
  deriving DecidableEq

/-- Row of the `conversation_members` junction table (`shared/schema.ts`). -/
structure ConversationMember where
  id : String
  conversationId : String
  userId : String
  joinedAt : Nat
  deriving DecidableEq

/-- Row of the `messages` table (`shared/schema.ts`). -/
structure Message where
  id : String
  conversationId : String
  senderId : String
  content : String
  messageType : String
  isEdited : Bool
  createdAt : Nat
  updatedAt : Nat
  deriving DecidableEq

/-- Row of the `message_read_receipts` table (`shared/schema.ts`).
The only uniqueness constraint declared in the schema is the primary key
`id`; there is no unique index on the pair (messageId, userId). -/
structure ReadReceipt where
  id : String
  messageId : String
  userId : String
  readAt : Nat
  deriving DecidableEq

/-- The persistent store: the five chat tables of `shared/schema.ts`
(the auth `sessions` table is outside the claims' scope). -/
structure DB where
  users : List User
  conversations : List Conversation
  conversationMembers : List ConversationMember
  messages : List Message
  messageReadReceipts : List ReadReceipt
  deriving DecidableEq

/-- `select from users where users.id = uid`. -/
def usersById (db : DB) (uid : String) : List User :=
  db.users.filter (fun u => u.id == uid)

/-- `select from conversations where conversations.id = cid`. -/
def convsById (db : DB) (cid : String) : List Conversation :=
  db.conversations.filter (fun c => c.id == cid)

/-- `select from messages where messages.conversationId = convId`. -/
def convMessages (db : DB) (convId : String) : List Message :=
  db.messages.filter (fun m => m.conversationId == convId)

/-- The receipt rows matching the pair (mid, uid): the join condition of
the `leftJoin` in `getUserConversations`. -/
def receiptsFor (db : DB) (mid uid : String) : List ReadReceipt :=
  db.messageReadReceipts.filter (fun r => r.messageId == mid && r.userId == uid)

/-- Whether some receipt row exists for the pair (mid, uid). -/
def hasReceipt (db : DB) (mid uid : String) : Bool :=
  db.messageReadReceipts.any (fun r => r.messageId == mid && r.userId == uid)

/-- One message's rows in the left join
`messages leftJoin messageReadReceipts on (receipt.messageId = message.id and
receipt.userId = uid)` of `getUserConversations` (`storage.ts`): a single
row with a null receipt when no receipt matches, otherwise one row per
matching receipt. -/
def leftJoinRow (db : DB) (uid : String) (m : Message) :
    List (Message × Option ReadReceipt) :=
  let rs := receiptsFor db m.id uid
  if rs.isEmpty then [(m, none)] else rs.map (fun r => (m, some r))

/-- The unread-count query of `getUserConversations` (`storage.ts`):
`count( * )` over the left join, filtered by
`messages.conversationId = convId AND receipt.id IS NULL AND
messages.senderId != uid`. -/
def unreadCountQuery (db : DB) (convId uid : String) : Nat :=
  ((db.messages.flatMap (leftJoinRow db uid)).filter
    (fun p => p.1.conversationId == convId && p.2.isNone &&
      !(p.1.senderId == uid))).length

/-- The unread count in the words of the spec: the number of messages of
the conversation sent by another user and lacking a read receipt for the
requesting user. (This is the spec-side definition for the refinement
claim C1; `unreadCountQuery` is the code-side one.) -/
def specUnreadCount (db : DB) (convId uid : String) : Nat :=
  ((convMessages db convId).filter
    (fun m => !(m.senderId == uid) && !(hasReceipt db m.id uid))).length

/-- The other-members query of `getUserConversations` (`storage.ts`):
`conversationMembers innerJoin users on (member.userId = users.id)` where
`member.conversationId = convId AND member.userId != uid`. -/
def otherMembers (db : DB) (convId uid : String) : List User :=
  (db.conversationMembers.filter
    (fun cm => cm.conversationId == convId && !(cm.userId == uid))).flatMap
    (fun cm => usersById db cm.userId)

/-- `getConversationMembers` (`storage.ts`): all member users of a
conversation, via `conversationMembers innerJoin users`. -/
def getConversationMembersQ (db : DB) (convId : String) : List User :=
  (db.conversationMembers.filter (fun cm => cm.conversationId == convId)).flatMap
    (fun cm => usersById db cm.userId)

/-- The membership join of `getUserConversations` (`storage.ts`):
`conversationMembers innerJoin conversations` where
`member.userId = uid`, before the `orderBy`. -/
def memberConversations (db : DB) (uid : String) : List Conversation :=
  (db.conversationMembers.filter (fun cm => cm.userId == uid)).flatMap
    (fun cm => convsById db cm.conversationId)

/-- Sortedness by `ORDER BY updatedAt DESC`: every earlier row has an
`updatedAt` at least as large as every later one. -/
abbrev sortedByUpdatedDesc (l : List Conversation) : Prop :=
  l.Pairwise (fun a b => b.updatedAt ≤ a.updatedAt)

/-- A possible result of the ordered membership query of
`getUserConversations`: SQL guarantees the rows and the descending
`updatedAt` order, but fixes no order among ties. -/
def validConversationRows (db : DB) (uid : String) (rows : List Conversation) : Prop :=
  rows.Perm (memberConversations db uid) ∧ sortedByUpdatedDesc rows

/-- A possible result of the last-message query of `getUserConversations`
(`orderBy desc(createdAt) limit 1`): `none` exactly when the conversation
has no messages, otherwise some message of maximal `createdAt`. -/
abbrev validLastMessage (db : DB) (convId : String) (lm : Option Message) : Prop :=
  match lm with
  | none => convMessages db convId = []
  | some m => m ∈ convMessages db convId ∧
      ∀ m2 ∈ convMessages db convId, m2.createdAt ≤ m.createdAt

/-- One element of the list built by `getUserConversations` (`storage.ts`):
the conversation row spread together with `lastMessage`, `unreadCount`
and `otherMembers`. -/
structure ConvEntry where
  conversation : Conversation
  lastMessage : Option Message
  unreadCount : Nat
  otherMembers : List User
  deriving DecidableEq

/-- The enrichment the `getUserConversations` loop performs for one
conversation row. -/
def entryMatches (db : DB) (uid : String) (c : Conversation) (e : ConvEntry) : Prop :=
  e.conversation = c ∧
  validLastMessage db c.id e.lastMessage ∧
  e.unreadCount = unreadCountQuery db c.id uid ∧
  e.otherMembers = otherMembers db c.id uid

/-- A possible return value of `getUserConversations(uid)` (`storage.ts`):
some valid ordering of the user's conversation rows, each enriched in
place by the per-conversation loop. -/
def validUserConversations (db : DB) (uid : String) (out : List ConvEntry) : Prop :=
  ∃ rows, validConversationRows db uid rows ∧
    List.Forall₂ (entryMatches db uid) rows out

/- ## Helper lemmas -/

theorem forall2_mem_right {α β : Type} {R : α → β → Prop} {l1 : List α} {l2 : List β}
    (h : List.Forall₂ R l1 l2) : ∀ b ∈ l2, ∃ a ∈ l1, R a b := by
  induction h with
  | nil => intro b hb; cases hb
  | cons hr ht ih =>
      intro b hb
      rcases List.mem_cons.mp hb with hb | hb
      · exact ⟨_, List.mem_cons_self _ _, hb ▸ hr⟩
      · rcases ih b hb with ⟨a, ha, hra⟩
        exact ⟨a, List.mem_cons_of_mem _ ha, hra⟩

theorem forall2_mem_left {α β : Type} {R : α → β → Prop} {l1 : List α} {l2 : List β}
    (h : List.Forall₂ R l1 l2) : ∀ a ∈ l1, ∃ b ∈ l2, R a b := by
  induction h with
  | nil => intro a ha; cases ha
  | cons hr ht ih =>
      intro a ha
      rcases List.mem_cons.mp ha with ha | ha
      · exact ⟨_, List.mem_cons_self _ _, ha ▸ hr⟩
      · rcases ih a ha with ⟨b, hb, hrb⟩
        exact ⟨b, List.mem_cons_of_mem _ hb, hrb⟩

theorem forall2_entry_map {db : DB} {uid : String} {rows : List Conversation}
    {out : List ConvEntry} (h : List.Forall₂ (entryMatches db uid) rows out) :
    out.map (fun e => e.conversation) = rows := by
  induction h with
  | nil => rfl
  | cons hr ht ih => simp [ih, hr.1]

/-- `hasReceipt` holds exactly when `receiptsFor` is nonempty. -/
theorem hasReceipt_eq_not_isEmpty (db : DB) (mid uid : String) :
    hasReceipt db mid uid = !(receiptsFor db mid uid).isEmpty := by
  unfold hasReceipt receiptsFor
  induction db.messageReadReceipts with
  | nil => rfl
  | cons r t ih =>
      by_cases h : (r.messageId == mid && r.userId == uid) = true <;>
        simp [h, ih]

/-- Contribution of a single message to the filtered left join of the
unread-count query: one row when the message is an unread message of the
conversation from another sender, no row otherwise. -/
theorem leftJoinRow_filter_length (db : DB) (convId uid : String) (m : Message) :
    ((leftJoinRow db uid m).filter
      (fun p => p.1.conversationId == convId && p.2.isNone &&
        !(p.1.senderId == uid))).length =
    (if (m.conversationId == convId && !(m.senderId == uid) &&
        !(hasReceipt db m.id uid)) = true then 1 else 0) := by
  unfold leftJoinRow
  rw [hasReceipt_eq_not_isEmpty]
  by_cases h : (receiptsFor db m.id uid).isEmpty = true
  · simp only [h, if_pos]
    by_cases h1 : (m.conversationId == convId) = true <;>
      by_cases h2 : (m.senderId == uid) = true <;>
        simp [List.filter, h1, h2]
  · simp only [h, if_neg, Bool.not_eq_true]
    rw [List.filter_map]
    have hempty : (fun p : Message × Option ReadReceipt =>
        p.1.conversationId == convId && p.2.isNone && !(p.1.senderId == uid)) ∘
        (fun r : ReadReceipt => (m, some r)) = fun _ => false := by
      funext r
      simp
    rw [hempty]
    simp [h]

/-- Refinement core for C1: the left-join counting query of
`getUserConversations` computes exactly the spec's unread count. -/
theorem unreadCountQuery_eq_spec (db : DB) (convId uid : String) :
    unreadCountQuery db convId uid = specUnreadCount db convId uid := by
  unfold unreadCountQuery specUnreadCount convMessages
  rw [List.filter_filter]
  induction db.messages with
  | nil => rfl
  | cons m t ih =>
      rw [List.flatMap_cons, List.filter_append, List.length_append, ih]
      rw [leftJoinRow_filter_length db convId uid m]
      by_cases h : (m.conversationId == convId && !(m.senderId == uid) &&
          !(hasReceipt db m.id uid)) = true
      · have h2 : ((!(m.senderId == uid) && !(hasReceipt db m.id uid)) &&
            m.conversationId == convId) = true := by
          revert h
          cases (m.conversationId == convId) <;>
            cases (m.senderId == uid) <;>
              cases (hasReceipt db m.id uid) <;> simp
        simp [h, h2, List.filter, Nat.add_comm]
      · have h2 : ((!(m.senderId == uid) && !(hasReceipt db m.id uid)) &&
            m.conversationId == convId) = false := by
          revert h
          cases (m.conversationId == convId) <;>
            cases (m.senderId == uid) <;>
              cases (hasReceipt db m.id uid) <;> simp
        simp [h, h2, List.filter]

/-- Introduction helper: the empty-conversation case of `validLastMessage`. -/
theorem validLastMessage_none {db : DB} {cid : String}
    (h : convMessages db cid = []) : validLastMessage db cid none := h

/-- Introduction helper: the maximal-message case of `validLastMessage`. -/
theorem validLastMessage_some {db : DB} {cid : String} {m : Message}
    (h1 : m ∈ convMessages db cid)
    (h2 : ∀ m2 ∈ convMessages db cid, m2.createdAt ≤ m.createdAt) :
    validLastMessage db cid (some m) := ⟨h1, h2⟩

/- ## Claim C1 -/

/-- C1: for every conversation entry that `getUserConversations(U)` reports,
the `unreadCount` equals the number of messages of that conversation with a
sender other than U and no read receipt for (message, U); in particular it
is 0 once U holds a receipt for every message of the conversation (the
count is total — a missing receipt row counts as unread, it is no error). -/
theorem getUserConversations_unread_correct (db : DB) (uid : String)
    (out : List ConvEntry) (e : ConvEntry)
    (hv : validUserConversations db uid out) (he : e ∈ out) :
    e.unreadCount = specUnreadCount db e.conversation.id uid ∧
    ((∀ m ∈ convMessages db e.conversation.id, hasReceipt db m.id uid = true) →
      e.unreadCount = 0) := by
  rcases hv with ⟨rows, _, hf⟩
  rcases forall2_mem_right hf e he with ⟨c, _, hconv, _, hcnt, _⟩
  have hc1 : e.unreadCount = specUnreadCount db e.conversation.id uid := by
    rw [hcnt, hconv, unreadCountQuery_eq_spec]
  refine ⟨hc1, fun hall => ?_⟩
  rw [hc1]
  unfold specUnreadCount
  have : (convMessages db e.conversation.id).filter
      (fun m => !(m.senderId == uid) && !(hasReceipt db m.id uid)) = [] := by
    rw [List.filter_eq_nil_iff]
    intro m hm
    rw [hall m hm]
    simp
  rw [this]
  rfl

def cw1userA : User :=
  { id := "A", email := none, firstName := none, lastName := none,
    profileImageUrl := none, isOnline := false, lastSeen := 0,
    createdAt := 0, updatedAt := 0 }

def cw1userS : User :=
  { id := "S", email := none, firstName := none, lastName := none,
    profileImageUrl := none, isOnline := true, lastSeen := 0,
    createdAt := 0, updatedAt := 0 }

def cw1c1 : Conversation :=
  { id := "c1", name := none, isGroup := false, createdAt := 1, updatedAt := 5 }

def cw1m1 : Message :=
  { id := "m1", conversationId := "c1", senderId := "S", content := "hello",
    messageType := "text", isEdited := false, createdAt := 5, updatedAt := 5 }

def cw1db : DB :=
  { users := [cw1userA, cw1userS],
    conversations := [cw1c1],
    conversationMembers :=
      [{ id := "cmA", conversationId := "c1", userId := "A", joinedAt := 1 },
       { id := "cmS", conversationId := "c1", userId := "S", joinedAt := 1 }],
    messages := [cw1m1],
    messageReadReceipts :=
      [{ id := "r1", messageId := "m1", userId := "S", readAt := 5 }] }

def cw1e : ConvEntry :=
  { conversation := cw1c1, lastMessage := some cw1m1, unreadCount := 1,
    otherMembers := [cw1userS] }

/-- Witness for C1 at a concrete store: user A has one conversation with
one message from S and no receipt for A, and the reported unread count (1)
equals the spec's count. -/
theorem getUserConversations_unread_correct_witness :
    cw1e.unreadCount = specUnreadCount cw1db cw1e.conversation.id "A" :=
  (getUserConversations_unread_correct cw1db "A" [cw1e] cw1e
    ⟨[cw1c1], ⟨by decide, by decide⟩,
      List.Forall₂.cons
        ⟨rfl, validLastMessage_some (by decide) (by decide), by decide, by decide⟩
        List.Forall₂.nil⟩
    (List.mem_singleton.mpr rfl)).1

/- ## Claim C9 -/

/-- C9: a user with zero conversation memberships gets the empty list (not
an error), and the entry of a conversation with zero messages has no
`lastMessage` and an unread count of 0. -/
theorem getUserConversations_empty_cases (db : DB) (uid : String)
    (out : List ConvEntry) (hv : validUserConversations db uid out) :
    (db.conversationMembers.filter (fun cm => cm.userId == uid) = [] → out = []) ∧
    (∀ e ∈ out, convMessages db e.conversation.id = [] →
      e.lastMessage = none ∧ e.unreadCount = 0) := by
  rcases hv with ⟨rows, ⟨hperm, _⟩, hf⟩
  constructor
  · intro hnone
    have hmc : memberConversations db uid = [] := by
      unfold memberConversations
      rw [hnone]
      rfl
    rw [hmc] at hperm
    have hrows : rows = [] := List.perm_nil.mp hperm
    subst hrows
    cases hf
    rfl
  · intro e he hmsgs
    rcases forall2_mem_right hf e he with ⟨c, _, hconv, hlm, hcnt, _⟩
    rw [hconv] at hmsgs
    constructor
    · cases hl : e.lastMessage with
      | none => rfl
      | some m =>
          rw [hl] at hlm
          exact absurd (hmsgs ▸ hlm.1) (List.not_mem_nil m)
    · rw [hcnt, unreadCountQuery_eq_spec]
      unfold specUnreadCount
      rw [hmsgs]
      rfl

def cw9c : Conversation :=
  { id := "c9", name := some "empty group", isGroup := true,
    createdAt := 2, updatedAt := 2 }

def cw9db : DB :=
  { users := [cw1userA],
    conversations := [cw9c],
    conversationMembers :=
      [{ id := "cm9", conversationId := "c9", userId := "A", joinedAt := 2 }],
    messages := [],
    messageReadReceipts := [] }

def cw9e : ConvEntry :=
  { conversation := cw9c, lastMessage := none, unreadCount := 0,
    otherMembers := [] }

/-- Witness for C9 at a concrete store: user A belongs to one conversation
with no messages; its entry has no last message and unread count 0. -/
theorem getUserConversations_empty_cases_witness :
    cw9e.lastMessage = none ∧ cw9e.unreadCount = 0 :=
  (getUserConversations_empty_cases cw9db "A" [cw9e]
    ⟨[cw9c], ⟨by decide, by decide⟩,
      List.Forall₂.cons
        ⟨rfl, validLastMessage_none (by decide), by decide, by decide⟩
        List.Forall₂.nil⟩).2
    cw9e (List.mem_singleton.mpr rfl) (by decide)

/- ## Claim C5 -/

def cx5c1 : Conversation :=
  { id := "c1", name := none, isGroup := false, createdAt := 0, updatedAt := 9 }

def cx5c2 : Conversation :=
  { id := "c2", name := none, isGroup := false, createdAt := 0, updatedAt := 9 }

def cx5db : DB :=
  { users := [cw1userA],
    conversations := [cx5c1, cx5c2],
    conversationMembers :=
      [{ id := "m1", conversationId := "c1", userId := "A", joinedAt := 0 },
       { id := "m2", conversationId := "c2", userId := "A", joinedAt := 0 }],
    messages := [],
    messageReadReceipts := [] }

def cx5e1 : ConvEntry :=
  { conversation := cx5c1, lastMessage := none, unreadCount := 0,
    otherMembers := [] }

def cx5e2 : ConvEntry :=
  { conversation := cx5c2, lastMessage := none, unreadCount := 0,
    otherMembers := [] }

/-- Counterexample to C5's determinism conjunct: the query orders only by
`updatedAt DESC` with no secondary sort key, so on a store with two
conversations sharing the same `updatedAt`, both result orders are valid
results of `getUserConversations` — two calls on the same state need not
return the same order. -/
theorem getUserConversations_tie_nondeterministic :
    validUserConversations cx5db "A" [cx5e1, cx5e2] ∧
    validUserConversations cx5db "A" [cx5e2, cx5e1] ∧
    [cx5e1, cx5e2] ≠ [cx5e2, cx5e1] :=
  ⟨⟨[cx5c1, cx5c2], ⟨by decide, by decide⟩,
      List.Forall₂.cons
        ⟨rfl, validLastMessage_none (by decide), by decide, by decide⟩
        (List.Forall₂.cons
          ⟨rfl, validLastMessage_none (by decide), by decide, by decide⟩
          List.Forall₂.nil)⟩,
   ⟨[cx5c2, cx5c1], ⟨by decide, by decide⟩,
      List.Forall₂.cons
        ⟨rfl, validLastMessage_none (by decide), by decide, by decide⟩
        (List.Forall₂.cons
          ⟨rfl, validLastMessage_none (by decide), by decide, by decide⟩
          List.Forall₂.nil)⟩,
   by decide⟩

/-- C5 (amended): the conversation list of `getUserConversations` is sorted
descending by `updatedAt`; no deterministic tie-break among equal
`updatedAt` values is guaranteed (the query has no secondary sort key). -/
theorem getUserConversations_sorted (db : DB) (uid : String)
    (out : List ConvEntry) (hv : validUserConversations db uid out) :
    sortedByUpdatedDesc (out.map (fun e => e.conversation)) := by
  rcases hv with ⟨rows, ⟨_, hsort⟩, hf⟩
  rw [forall2_entry_map hf]
  exact hsort

/-- Witness for the amended C5 at a concrete store with two conversations
of distinct recency. -/
theorem getUserConversations_sorted_witness :
    sortedByUpdatedDesc ([cw1e].map (fun e => e.conversation)) :=
  getUserConversations_sorted cw1db "A" [cw1e]
    ⟨[cw1c1], ⟨by decide, by decide⟩,
      List.Forall₂.cons
        ⟨rfl, validLastMessage_some (by decide) (by decide), by decide, by decide⟩
        List.Forall₂.nil⟩

/- ## Claim C4 -/

/-- The message-sender join of `getConversationMessages` (`storage.ts`):
`messages innerJoin users on (messages.senderId = users.id)` where
`messages.conversationId = convId`. -/
def joinedMessages (db : DB) (convId : String) : List (Message × User) :=
  (db.messages.filter (fun m => m.conversationId == convId)).flatMap
    (fun m => (usersById db m.senderId).map (fun u => (m, u)))

/-- Sortedness by `ORDER BY createdAt DESC`. -/
abbrev sortedDescCreated (l : List (Message × User)) : Prop :=
  l.Pairwise (fun p q => q.1.createdAt ≤ p.1.createdAt)

/-- A possible return value of `getConversationMessages(convId, limit)`
(`storage.ts`): the join is fetched in some descending-recency order,
truncated by `limit` (absent limit defaults to 50, Lean side `Option`),
then reversed before returning. -/
def getConversationMessagesRel (db : DB) (convId : String) (lim : Option Nat)
    (out : List (Message × User)) : Prop :=
  ∃ full, full.Perm (joinedMessages db convId) ∧ sortedDescCreated full ∧
    out = (full.take (lim.getD 50)).reverse

/-- C4: `getConversationMessages` returns the `limit` most recent messages
of the conversation (all of them when fewer exist), each joined with the
sender row, in non-decreasing creation-time order; an absent limit behaves
exactly as limit 50. "Most recent" is stated as: every joined message left
out is no newer than any returned one. -/
theorem getConversationMessages_recent_ascending (db : DB) (convId : String)
    (lim : Option Nat) (out : List (Message × User))
    (h : getConversationMessagesRel db convId lim out)
    (_hpos : 0 < lim.getD 50) :
    out.Pairwise (fun p q => p.1.createdAt ≤ q.1.createdAt) ∧
    out.length = min (lim.getD 50) (joinedMessages db convId).length ∧
    (∀ q ∈ out, q ∈ joinedMessages db convId) ∧
    (∀ p ∈ joinedMessages db convId, p ∉ out →
      ∀ q ∈ out, p.1.createdAt ≤ q.1.createdAt) ∧
    (∀ out2, getConversationMessagesRel db convId none out2 ↔
      getConversationMessagesRel db convId (some 50) out2) := by
  rcases h with ⟨full, hperm, hsort, hout⟩
  refine ⟨?_, ?_, ?_, ?_, fun out2 => Iff.rfl⟩
  · rw [hout, List.pairwise_reverse]
    exact hsort.sublist (List.take_sublist _ full)
  · rw [hout]
    simp [List.length_take, hperm.length_eq]
  · intro q hq
    rw [hout, List.mem_reverse] at hq
    exact hperm.mem_iff.mp ((List.take_sublist _ full).subset hq)
  · intro p hp hpo q hq
    rw [hout, List.mem_reverse] at hpo hq
    have hpf : p ∈ full := hperm.mem_iff.mpr hp
    rw [← List.take_append_drop (lim.getD 50) full, List.mem_append] at hpf
    rcases hpf with hpf | hpf
    · exact absurd hpf hpo
    · rw [← List.take_append_drop (lim.getD 50) full] at hsort
      rcases List.pairwise_append.mp hsort with ⟨_, _, hcross⟩
      exact hcross q hq p hpf

def cw4m1 : Message :=
  { id := "m1", conversationId := "c4", senderId := "S", content := "first",
    messageType := "text", isEdited := false, createdAt := 1, updatedAt := 1 }

def cw4m2 : Message :=
  { id := "m2", conversationId := "c4", senderId := "S", content := "second",
    messageType := "text", isEdited := false, createdAt := 2, updatedAt := 2 }

def cw4db : DB :=
  { users := [cw1userS],
    conversations :=
      [{ id := "c4", name := none, isGroup := false, createdAt := 0, updatedAt := 2 }],
    conversationMembers :=
      [{ id := "cm4", conversationId := "c4", userId := "S", joinedAt := 0 }],
    messages := [cw4m1, cw4m2],
    messageReadReceipts := [] }

/-- Witness for C4 at a concrete store: limit 1 over two messages returns
exactly the single most recent joined message. -/
theorem getConversationMessages_recent_ascending_witness :
    ([(cw4m2, cw1userS)] : List (Message × User)).length =
      min ((some 1 : Option Nat).getD 50) (joinedMessages cw4db "c4").length :=
  (getConversationMessages_recent_ascending cw4db "c4" (some 1)
    [(cw4m2, cw1userS)]
    ⟨[(cw4m2, cw1userS), (cw4m1, cw1userS)], by decide, by decide, rfl⟩
    (by decide)).2.1

/- ## Claim C7 -/

/-- `createMessage` (`storage.ts`): inserts the new message row, then
updates the parent conversation's `updatedAt` to the insertion time, and
returns the inserted message. -/
def createMessage (db : DB) (freshId : String) (now : Nat)
    (convId senderId content mtype : String) : DB × Message :=
  let m : Message :=
    { id := freshId, conversationId := convId, senderId := senderId,
      content := content, messageType := mtype, isEdited := false,
      createdAt := now, updatedAt := now }
  let db1 : DB := { db with messages := db.messages ++ [m] }
  let db2 : DB :=
    { db1 with conversations := db1.conversations.map (fun c =>
        if c.id == convId then { c with updatedAt := now } else c) }
  (db2, m)

theorem forall2_map_self {α β : Type} {R : α → β → Prop} {f : α → β}
    (l : List α) (h : ∀ a ∈ l, R a (f a)) : List.Forall₂ R l (l.map f) := by
  induction l with
  | nil => exact List.Forall₂.nil
  | cons a t ih =>
      exact List.Forall₂.cons (h a (List.mem_cons_self a t))
        (ih fun b hb => h b (List.mem_cons_of_mem a hb))

/-- C7: `createMessage` appends exactly the one new message row and, as
its only other effect, sets the parent conversation's `updatedAt` to the
insertion time: user, membership and receipt tables are untouched, every
conversation with a different id is unchanged, and the parent keeps every
field except `updatedAt`. -/
theorem createMessage_frame (db : DB) (freshId : String) (now : Nat)
    (convId senderId content mtype : String) :
    (createMessage db freshId now convId senderId content mtype).1.messages =
      db.messages ++ [(createMessage db freshId now convId senderId content mtype).2] ∧
    (createMessage db freshId now convId senderId content mtype).1.users = db.users ∧
    (createMessage db freshId now convId senderId content mtype).1.conversationMembers =
      db.conversationMembers ∧
    (createMessage db freshId now convId senderId content mtype).1.messageReadReceipts =
      db.messageReadReceipts ∧
    List.Forall₂
      (fun c c2 => if c.id == convId then c2 = { c with updatedAt := now } else c2 = c)
      db.conversations
      (createMessage db freshId now convId senderId content mtype).1.conversations := by
  refine ⟨by rfl, by rfl, by rfl, by rfl, ?_⟩
  have h := @forall2_map_self Conversation Conversation
    (fun c c2 => if c.id == convId then c2 = { c with updatedAt := now } else c2 = c)
    (fun c => if c.id == convId then { c with updatedAt := now } else c)
    db.conversations
    (fun c _ => by by_cases hc : (c.id == convId) = true <;> simp [hc])
  exact h

/- ## Claim C2 -/

/-- `markMessageAsRead` (`storage.ts`): an insert of a receipt row with
`onConflictDoNothing()`. The only uniqueness constraint the schema
declares on `message_read_receipts` is the primary key `id` (a generated
uuid), so `ON CONFLICT DO NOTHING` can only suppress a clash of the fresh
primary key itself — there is no unique index on (messageId, userId) for
a repeated pair to conflict with. -/
def markMessageAsRead (db : DB) (freshId : String) (now : Nat)
    (messageId uid : String) : DB :=
  if db.messageReadReceipts.any (fun r => r.id == freshId) then db
  else
    { db with messageReadReceipts := db.messageReadReceipts ++
        [{ id := freshId, messageId := messageId, userId := uid, readAt := now }] }

def cb2db : DB :=
  { users := [cw1userA, cw1userS],
    conversations := [cw1c1],
    conversationMembers :=
      [{ id := "cmA", conversationId := "c1", userId := "A", joinedAt := 1 },
       { id := "cmS", conversationId := "c1", userId := "S", joinedAt := 1 }],
    messages := [cw1m1],
    messageReadReceipts := [] }

/-- C2 fails on the code: calling `markMessageAsRead` twice for the same
(message, user) pair inserts two receipt rows, because the schema has no
unique constraint on the pair and the generated primary keys differ, so
`onConflictDoNothing` never fires. Neither call errors, but the store ends
with two rows for (m1, A) instead of exactly one. -/
theorem markMessageAsRead_duplicates :
    (List.filter (fun r => r.messageId == "m1" && r.userId == "A")
      (markMessageAsRead (markMessageAsRead cb2db "r1" 5 "m1" "A")
        "r2" 6 "m1" "A").messageReadReceipts).length = 2 := by
  decide

/- ## Claims C3 and C10: POST /conversations -/

/-- `addConversationMember` (`storage.ts`): plain insert of a membership
row (no conflict handling; the schema has no unique constraint on the
(conversationId, userId) pair). -/
def addMemberRow (db : DB) (cm : ConversationMember) : DB :=
  { db with conversationMembers := db.conversationMembers ++ [cm] }

/-- `createConversation` (`storage.ts`): insert of one conversation row. -/
def createConversationRow (db : DB) (convId : String) (cname : Option String)
    (isGrp : Bool) (now : Nat) : DB :=
  { db with conversations := db.conversations ++
      [{ id := convId, name := cname, isGroup := isGrp,
         createdAt := now, updatedAt := now }] }

/-- The write steps of the POST /conversations handler (`routes.ts`), in
program order: create the conversation row, add the creator as a member,
then add each requested member whose id differs from the creator's. The
handler wraps them in no transaction. -/
def createConversationSteps (uid : String) (cname : Option String) (isGrp : Bool)
    (convId creatorRowId : String) (rowIds : String → String)
    (memberIds : List String) (now : Nat) : List (DB → DB) :=
  (fun db => createConversationRow db convId cname isGrp now) ::
  (fun db => addMemberRow db
    { id := creatorRowId, conversationId := convId, userId := uid, joinedAt := now }) ::
  (memberIds.filter (fun m => !(m == uid))).map (fun m =>
    fun db => addMemberRow db
      { id := rowIds m, conversationId := convId, userId := m, joinedAt := now })

/-- Runs only the first k steps: models an execution whose (k+1)-th write
throws — since no transaction wraps the handler, the first k writes
persist and the rest never run. -/
def runFirst (steps : List (DB → DB)) (k : Nat) (db : DB) : DB :=
  (steps.take k).foldl (fun s f => f s) db

/-- The POST /conversations handler when every write succeeds. -/
def createConversationRoute (db : DB) (uid : String) (cname : Option String)
    (isGrp : Bool) (convId creatorRowId : String) (rowIds : String → String)
    (memberIds : List String) (now : Nat) : DB :=
  (createConversationSteps uid cname isGrp convId creatorRowId rowIds
    memberIds now).foldl (fun s f => f s) db

def cb3db : DB :=
  { users := [cw1userA], conversations := [], conversationMembers := [],
    messages := [], messageReadReceipts := [] }

def cb3final : DB :=
  runFirst (createConversationSteps "A" (some "team") true "c3" "cr3"
    (fun m => String.append "row-" m) ["B"] 4) 2 cb3db

/-- C3 fails on the code: the handler issues the conversation insert and
the member inserts as separate unwrapped writes. If the third write (the
membership of requested member B) throws — e.g. a foreign-key violation
because no user B exists — the first two writes persist: the store keeps
the conversation row and the creator's membership while B's membership is
missing, which is neither all of the memberships nor none of them. -/
theorem createConversation_partial_state :
    cb3final.conversations.length = 1 ∧
    (List.filter (fun cm => cm.userId == "A") cb3final.conversationMembers).length = 1 ∧
    (List.filter (fun cm => cm.userId == "B") cb3final.conversationMembers).length = 0 := by
  decide

theorem foldl_memberSteps (convId : String) (rowIds : String → String) (now : Nat)
    (ms : List String) (db : DB) :
    ((ms.map (fun m => fun db2 => addMemberRow db2
        { id := rowIds m, conversationId := convId, userId := m,
          joinedAt := now })).foldl (fun s f => f s) db).conversationMembers =
    db.conversationMembers ++ ms.map (fun m =>
      ({ id := rowIds m, conversationId := convId, userId := m,
         joinedAt := now } : ConversationMember)) := by
  induction ms generalizing db with
  | nil => simp
  | cons a t ih =>
      rw [List.map_cons, List.foldl_cons, ih]
      simp [addMemberRow]

/-- C10: the POST /conversations handler gives the creating user exactly
one membership row in the new conversation, even when the creator's own id
appears among the submitted memberIds: the creator is added first and the
member loop skips every id equal to the creator's. (The hypothesis says
the generated conversation id is fresh.) -/
theorem creator_single_membership (db : DB) (uid : String) (cname : Option String)
    (isGrp : Bool) (convId creatorRowId : String) (rowIds : String → String)
    (memberIds : List String) (now : Nat)
    (hfresh : ∀ cm ∈ db.conversationMembers, ¬ cm.conversationId = convId) :
    (List.filter (fun cm => cm.conversationId == convId && cm.userId == uid)
      (createConversationRoute db uid cname isGrp convId creatorRowId rowIds
        memberIds now).conversationMembers).length = 1 := by
  unfold createConversationRoute createConversationSteps
  rw [List.foldl_cons, List.foldl_cons, foldl_memberSteps]
  have hmem : (addMemberRow (createConversationRow db convId cname isGrp now)
      { id := creatorRowId, conversationId := convId, userId := uid,
        joinedAt := now }).conversationMembers =
      db.conversationMembers ++
        [{ id := creatorRowId, conversationId := convId, userId := uid,
           joinedAt := now }] := rfl
  rw [hmem, List.append_assoc, List.filter_append]
  have h1 : List.filter (fun cm => cm.conversationId == convId && cm.userId == uid)
      db.conversationMembers = [] := by
    rw [List.filter_eq_nil_iff]
    intro cm hcm
    have := hfresh cm hcm
    simp [this]
  have h3 : List.filter (fun cm => cm.conversationId == convId && cm.userId == uid)
      ((memberIds.filter (fun m => !(m == uid))).map (fun m =>
        ({ id := rowIds m, conversationId := convId, userId := m,
           joinedAt := now } : ConversationMember))) = [] := by
    rw [List.filter_eq_nil_iff]
    intro cm hcm
    rcases List.mem_map.mp hcm with ⟨m, hm, hrow⟩
    rcases List.mem_filter.mp hm with ⟨_, hne⟩
    subst hrow
    simp only [Bool.not_eq_true'] at hne
    simp [hne]
  rw [h1, List.filter_append, h3]
  simp

/-- Witness for C10 at a concrete store: the creator's id appears in the
submitted memberIds, yet exactly one membership row for the creator is
persisted. -/
theorem creator_single_membership_witness :
    (List.filter (fun cm => cm.conversationId == "c3" && cm.userId == "A")
      (createConversationRoute cb3db "A" none true "c3" "cr3" (fun m => m)
        ["A", "B"] 4).conversationMembers).length = 1 :=
  creator_single_membership cb3db "A" none true "c3" "cr3" (fun m => m)
    ["A", "B"] 4 (by decide)

/- ## Claim C8: boundary membership checks -/

/-- Route handler outcome at the transport boundary: a JSON payload or a
403 access-denied response. -/
inductive RouteResult (α : Type) where
  | ok (value : α)
  | accessDenied
  deriving DecidableEq

/-- The membership check of the two message routes (`routes.ts`):
`members.some(member => member.id === userId)` over the result of
`getConversationMembers(id)`. -/
def isMemberCheck (db : DB) (convId uid : String) : Bool :=
  (getConversationMembersQ db convId).any (fun u => u.id == uid)

/-- GET /api/conversations/:id/messages (`routes.ts`): verifies membership
first; a non-member receives 403 and no query runs; a member receives some
valid `getConversationMessages` result. The handler mutates nothing either
way. -/
def getMessagesRouteRel (db : DB) (uid convId : String) (lim : Option Nat)
    (res : RouteResult (List (Message × User))) (db2 : DB) : Prop :=
  if isMemberCheck db convId uid then
    db2 = db ∧ ∃ out, getConversationMessagesRel db convId lim out ∧
      res = RouteResult.ok out
  else db2 = db ∧ res = RouteResult.accessDenied

/-- POST /api/conversations/:id/messages (`routes.ts`): verifies
membership, then runs `createMessage` followed by `markMessageAsRead` for
the sender; the handler finally re-reads the message joined with its
sender for the response body (a pure read). A non-member receives 403 and
no write runs. -/
def postMessageRoute (db : DB) (uid convId content mtype fMsg fRcpt : String)
    (now : Nat) : RouteResult Message × DB :=
  if isMemberCheck db convId uid then
    let p := createMessage db fMsg now convId uid content mtype
    (RouteResult.ok p.2, markMessageAsRead p.1 fRcpt now p.2.id uid)
  else (RouteResult.accessDenied, db)

/-- POST /api/messages/:id/read (`routes.ts`): the handler calls
`markMessageAsRead(id, userId)` directly — it performs no membership
check of any kind before writing. -/
def markReadRoute (db : DB) (freshId : String) (now : Nat)
    (messageId uid : String) : RouteResult Unit × DB :=
  (RouteResult.ok (), markMessageAsRead db freshId now messageId uid)

def cw8userX : User :=
  { id := "X", email := none, firstName := none, lastName := none,
    profileImageUrl := none, isOnline := false, lastSeen := 0,
    createdAt := 0, updatedAt := 0 }

def cx8db : DB :=
  { users := [cw1userA, cw1userS, cw8userX],
    conversations := [cw1c1],
    conversationMembers :=
      [{ id := "cmA", conversationId := "c1", userId := "A", joinedAt := 1 },
       { id := "cmS", conversationId := "c1", userId := "S", joinedAt := 1 }],
    messages := [cw1m1],
    messageReadReceipts := [] }

/-- Counterexample to C8: user X is not a member of conversation c1, yet
the mark-message-as-read route succeeds for X on c1's message m1 — it
responds ok (not access-denied) and mutates the store by inserting a
receipt row for (m1, X). The claim's "every conversation-scoped boundary
operation" therefore fails for the mark-as-read operation. -/
theorem markRead_route_no_membership_check :
    isMemberCheck cx8db "c1" "X" = false ∧
    (markReadRoute cx8db "r9" 9 "m1" "X").1 = RouteResult.ok () ∧
    (List.filter (fun r => r.messageId == "m1" && r.userId == "X")
      (markReadRoute cx8db "r9" 9 "m1" "X").2.messageReadReceipts).length = 1 := by
  decide

/-- C8 (amended): the two conversation-scoped message routes — reading a
conversation's messages and posting a message — verify that the
authenticated user is a current member, and on failure respond
access-denied with no mutation; the mark-message-as-read route performs
no such check (see the counterexample). -/
theorem message_routes_enforce_membership (db : DB) (uid convId : String)
    (hmem : isMemberCheck db convId uid = false) :
    (∀ lim res db2, getMessagesRouteRel db uid convId lim res db2 →
      res = RouteResult.accessDenied ∧ db2 = db) ∧
    (∀ content mtype fMsg fRcpt now,
      postMessageRoute db uid convId content mtype fMsg fRcpt now =
        (RouteResult.accessDenied, db)) := by
  constructor
  · intro lim res db2 h
    unfold getMessagesRouteRel at h
    rw [hmem] at h
    simp at h
    exact ⟨h.2, h.1⟩
  · intro content mtype fMsg fRcpt now
    unfold postMessageRoute
    rw [hmem]
    simp

/-- Witness for the amended C8: non-member X posting to conversation c1
is denied and the store is unchanged. -/
theorem message_routes_enforce_membership_witness :
    postMessageRoute cx8db "X" "c1" "hi" "text" "f1" "f2" 9 =
      (RouteResult.accessDenied, cx8db) :=
  (message_routes_enforce_membership cx8db "X" "c1" (by decide)).2
    "hi" "text" "f1" "f2" 9

/- ## Claim C6: POST /api/conversations/direct -/

/-- The match predicate of the direct-conversation route (`routes.ts`):
`!conv.isGroup && conv.otherMembers.length === 1 &&
conv.otherMembers[0].id === otherUserId`. -/
def isDirectWith (e : ConvEntry) (other : String) : Bool :=
  !e.conversation.isGroup && (e.otherMembers.length == 1) &&
    (match e.otherMembers.head? with
     | some u => u.id == other
     | none => false)

/-- The same predicate read off the store for a conversation row (an entry
of a valid aggregation output satisfies `isDirectWith` exactly when its
conversation satisfies this, by `entryMatches`). -/
def convIsDirectWith (db : DB) (uid other : String) (c : Conversation) : Bool :=
  !c.isGroup && ((otherMembers db c.id uid).length == 1) &&
    (match (otherMembers db c.id uid).head? with
     | some u => u.id == other
     | none => false)

/-- The conversation row the direct route inserts on a miss (`routes.ts`):
unnamed, non-group. -/
def newDirectConv (f1 : String) (now : Nat) : Conversation :=
  { id := f1, name := none, isGroup := false, createdAt := now, updatedAt := now }

/-- One call of the POST /api/conversations/direct handler (`routes.ts`),
given the conversation list `out` that the aggregation returned: `find`
the first non-group conversation whose single other member is `other`;
when found, return it and write nothing; otherwise create an unnamed
non-group conversation and add both users as members (without checking
`other` against `uid`). -/
def directStep (db : DB) (uid other f1 f2 f3 : String) (now : Nat)
    (out : List ConvEntry) : Conversation × DB :=
  match out.find? (fun e => isDirectWith e other) with
  | some e => (e.conversation, db)
  | none =>
      let c := newDirectConv f1 now
      let db1 : DB := { db with conversations := db.conversations ++ [c] }
      let db2 := addMemberRow db1
        { id := f2, conversationId := f1, userId := uid, joinedAt := now }
      let db3 := addMemberRow db2
        { id := f3, conversationId := f1, userId := other, joinedAt := now }
      (c, db3)

/-- A possible execution of POST /api/conversations/direct: some valid
aggregation output drives `directStep`. -/
def directRouteRel (db : DB) (uid other f1 f2 f3 : String) (now : Nat)
    (res : Conversation) (db2 : DB) : Prop :=
  ∃ out, validUserConversations db uid out ∧
    (res, db2) = directStep db uid other f1 f2 f3 now out

/-- The store after the creating branch of the direct route, written as a
single record (proved equal to the sequential updates in
`directStep_none`). -/
def directCreatedDB (db : DB) (uid other f1 f2 f3 : String) (now : Nat) : DB :=
  { users := db.users,
    conversations := db.conversations ++ [newDirectConv f1 now],
    conversationMembers := db.conversationMembers ++
      [{ id := f2, conversationId := f1, userId := uid, joinedAt := now },
       { id := f3, conversationId := f1, userId := other, joinedAt := now }],
    messages := db.messages,
    messageReadReceipts := db.messageReadReceipts }

theorem directStep_none (db : DB) (uid other f1 f2 f3 : String) (now : Nat)
    {out : List ConvEntry}
    (h : out.find? (fun e => isDirectWith e other) = none) :
    directStep db uid other f1 f2 f3 now out =
      (newDirectConv f1 now, directCreatedDB db uid other f1 f2 f3 now) := by
  obtain ⟨us, cs, cms, ms, rs⟩ := db
  unfold directStep directCreatedDB
  rw [h]
  simp [addMemberRow, List.append_assoc]

theorem isDirectWith_of_entryMatches {db : DB} {uid : String}
    {c : Conversation} {e : ConvEntry} (other : String)
    (h : entryMatches db uid c e) :
    isDirectWith e other = convIsDirectWith db uid other c := by
  rcases h with ⟨h1, _, _, h4⟩
  unfold isDirectWith convIsDirectWith
  rw [h1, h4]

theorem memberConversations_subset {db : DB} {uid : String} {c : Conversation}
    (h : c ∈ memberConversations db uid) : c ∈ db.conversations := by
  unfold memberConversations convsById at h
  rcases List.mem_flatMap.mp h with ⟨cm, _, hc⟩
  exact (List.mem_filter.mp hc).1

/-- A valid aggregation output and the membership join determine each
other entrywise. -/
theorem valid_out_entry {db : DB} {uid : String} {out : List ConvEntry}
    (hv : validUserConversations db uid out) :
    (∀ e ∈ out, e.conversation ∈ memberConversations db uid ∧
      entryMatches db uid e.conversation e) ∧
    (∀ c ∈ memberConversations db uid, ∃ e ∈ out, e.conversation = c) := by
  rcases hv with ⟨rows, ⟨hperm, _⟩, hf⟩
  constructor
  · intro e he
    rcases forall2_mem_right hf e he with ⟨c, hc, hm⟩
    refine ⟨?_, ?_⟩ <;> rw [hm.1]
    · exact hperm.mem_iff.mp hc
    · exact hm
  · intro c hc
    rcases forall2_mem_left hf c (hperm.mem_iff.mpr hc) with ⟨e, he, hm⟩
    exact ⟨e, he, hm.1⟩

theorem flatMap_congr_mem {α β : Type} {l : List α} {f g : α → List β}
    (h : ∀ a ∈ l, f a = g a) : l.flatMap f = l.flatMap g := by
  induction l with
  | nil => rfl
  | cons a t ih =>
      rw [List.flatMap_cons, List.flatMap_cons, h a (List.mem_cons_self a t),
        ih fun b hb => h b (List.mem_cons_of_mem a hb)]

/-- Creating the direct conversation does not change the other-members
join of any conversation with a different id. -/
theorem otherMembers_created (db : DB) (uid other f1 f2 f3 : String) (now : Nat)
    (cid : String) (hcid : ¬ cid = f1) (u2 : String) :
    otherMembers (directCreatedDB db uid other f1 f2 f3 now) cid u2 =
      otherMembers db cid u2 := by
  unfold otherMembers directCreatedDB usersById
  dsimp only
  rw [List.filter_append]
  have hnew : List.filter (fun cm => cm.conversationId == cid && !(cm.userId == u2))
      ([{ id := f2, conversationId := f1, userId := uid, joinedAt := now },
        { id := f3, conversationId := f1, userId := other, joinedAt := now }] :
        List ConversationMember) = [] := by
    simp [Ne.symm hcid]
  rw [hnew, List.append_nil]

/-- Creating the direct conversation appends exactly the new conversation
to the creator's membership join. -/
theorem memberConversations_created (db : DB) (uid other f1 f2 f3 : String)
    (now : Nat) (hne : ¬ uid = other)
    (hfresh1 : ∀ c ∈ db.conversations, ¬ c.id = f1)
    (hfresh2 : ∀ cm ∈ db.conversationMembers, ¬ cm.conversationId = f1) :
    memberConversations (directCreatedDB db uid other f1 f2 f3 now) uid =
      memberConversations db uid ++ [newDirectConv f1 now] := by
  unfold memberConversations directCreatedDB convsById
  dsimp only
  rw [List.filter_append]
  have hrows : List.filter (fun cm => cm.userId == uid)
      ([{ id := f2, conversationId := f1, userId := uid, joinedAt := now },
        { id := f3, conversationId := f1, userId := other, joinedAt := now }] :
        List ConversationMember) =
      [{ id := f2, conversationId := f1, userId := uid, joinedAt := now }] := by
    simp [Ne.symm hne]
  rw [hrows, List.flatMap_append]
  congr 1
  · refine flatMap_congr_mem fun cm hcm => ?_
    have hcm2 : cm ∈ db.conversationMembers := (List.mem_filter.mp hcm).1
    rw [List.filter_append]
    have hnil : List.filter (fun c => c.id == cm.conversationId)
        [newDirectConv f1 now] = [] := by
      simp [newDirectConv, Ne.symm (hfresh2 cm hcm2)]
    rw [hnil, List.append_nil]
  · have hold : db.conversations.filter (fun c => c.id == f1) = [] := by
      rw [List.filter_eq_nil_iff]
      intro c hc
      simp [hfresh1 c hc]
    simp [List.filter_append, hold, newDirectConv]

/-- The conversation the direct route creates satisfies the route's own
match predicate afterwards (given that the other user's row exists
uniquely and the new id is fresh). -/
theorem convIsDirectWith_created (db : DB) (uid other f1 f2 f3 : String)
    (now : Nat) (hne : ¬ uid = other)
    (huser : (db.users.filter (fun u => u.id == other)).length = 1)
    (hfresh2 : ∀ cm ∈ db.conversationMembers, ¬ cm.conversationId = f1) :
    convIsDirectWith (directCreatedDB db uid other f1 f2 f3 now) uid other
      (newDirectConv f1 now) = true := by
  have hom : otherMembers (directCreatedDB db uid other f1 f2 f3 now)
      (newDirectConv f1 now).id uid = db.users.filter (fun u => u.id == other) := by
    unfold otherMembers directCreatedDB usersById newDirectConv
    dsimp only
    rw [List.filter_append]
    have hold : List.filter (fun cm => cm.conversationId == f1 && !(cm.userId == uid))
        db.conversationMembers = [] := by
      rw [List.filter_eq_nil_iff]
      intro cm hcm
      simp [hfresh2 cm hcm]
    have hnewrows : List.filter (fun cm => cm.conversationId == f1 && !(cm.userId == uid))
        ([{ id := f2, conversationId := f1, userId := uid, joinedAt := now },
          { id := f3, conversationId := f1, userId := other, joinedAt := now }] :
          List ConversationMember) =
        [{ id := f3, conversationId := f1, userId := other, joinedAt := now }] := by
      simp [Ne.symm hne]
    rw [hold, hnewrows]
    simp
  unfold convIsDirectWith
  rw [hom]
  rcases List.length_eq_one.mp huser with ⟨u, hu⟩
  have hmem : u ∈ db.users.filter (fun u2 => u2.id == other) := by
    rw [hu]
    exact List.mem_singleton.mpr rfl
  have huid : (u.id == other) = true := (List.mem_filter.mp hmem).2
  rw [hu]
  simp [newDirectConv, huid]

def cx6db0 : DB :=
  { users := [cw1userA], conversations := [], conversationMembers := [],
    messages := [], messageReadReceipts := [] }

def cx6c1 : Conversation := newDirectConv "d1" 7

def cx6db1 : DB := directCreatedDB cx6db0 "A" "A" "d1" "dm1" "dm2" 7

def cx6e : ConvEntry :=
  { conversation := cx6c1, lastMessage := none, unreadCount := 0,
    otherMembers := [] }

def cx6c2 : Conversation := newDirectConv "d2" 9

def cx6db2 : DB := directCreatedDB cx6db1 "A" "A" "d2" "dm3" "dm4" 9

/-- Counterexample to C6 as stated ("for every pair of users A and B"):
with A = B the handler never matches its own creation — it adds A twice as
a member, so the conversation has zero *other* members and fails the
`otherMembers.length === 1` test. Two successive calls with the pair
(A, A) on an initially conversation-free store return two different
conversation ids and leave two direct conversations behind. -/
theorem direct_route_self_duplicate :
    directRouteRel cx6db0 "A" "A" "d1" "dm1" "dm2" 7 cx6c1 cx6db1 ∧
    directRouteRel cx6db1 "A" "A" "d2" "dm3" "dm4" 9 cx6c2 cx6db2 ∧
    ¬ cx6c1.id = cx6c2.id ∧
    cx6db2.conversations.length = 2 :=
  ⟨⟨[], ⟨[], ⟨by decide, by decide⟩, List.Forall₂.nil⟩, by decide⟩,
   ⟨[cx6e, cx6e],
    ⟨[cx6c1, cx6c1], ⟨by decide, by decide⟩,
      List.Forall₂.cons
        ⟨rfl, validLastMessage_none (by decide), by decide, by decide⟩
        (List.Forall₂.cons
          ⟨rfl, validLastMessage_none (by decide), by decide, by decide⟩
          List.Forall₂.nil)⟩,
    by decide⟩,
   by decide, by decide⟩

/-- C6 (amended): for two distinct users — with the store invariants the
database guarantees (the other user's row exists uniquely, the generated
conversation id is fresh) and at most one direct conversation of the
requesting user with the other user already present — two invocations of
the direct-conversation route return the same conversation id, and the
second invocation creates no conversation. -/
theorem direct_route_idempotent (db : DB) (uid other f1 f2 f3 g1 g2 g3 : String)
    (now1 now2 : Nat) (res1 res2 : Conversation) (db1 db2 : DB)
    (hne : ¬ uid = other)
    (huser : (db.users.filter (fun u => u.id == other)).length = 1)
    (hfresh1 : ∀ c ∈ db.conversations, ¬ c.id = f1)
    (hfresh2 : ∀ cm ∈ db.conversationMembers, ¬ cm.conversationId = f1)
    (huniq : ∀ c ∈ memberConversations db uid, ∀ c2 ∈ memberConversations db uid,
      convIsDirectWith db uid other c = true →
      convIsDirectWith db uid other c2 = true → c = c2)
    (h1 : directRouteRel db uid other f1 f2 f3 now1 res1 db1)
    (h2 : directRouteRel db1 uid other g1 g2 g3 now2 res2 db2) :
    res1.id = res2.id ∧ db2.conversations = db1.conversations := by
  rcases h1 with ⟨out1, hv1, heq1⟩
  rcases h2 with ⟨out2, hv2, heq2⟩
  cases hf1 : out1.find? (fun e => isDirectWith e other) with
  | some e =>
      have hstep : directStep db uid other f1 f2 f3 now1 out1 = (e.conversation, db) := by
        unfold directStep
        rw [hf1]
      rw [hstep] at heq1
      have hres1 : res1 = e.conversation := congrArg Prod.fst heq1
      have hdb1 : db1 = db := congrArg Prod.snd heq1
      rw [hdb1] at hv2 heq2 ⊢
      have hde : isDirectWith e other = true := by
        have h := List.find?_some hf1
        exact h
      have hein : e ∈ out1 := List.mem_of_find?_eq_some hf1
      have hE := (valid_out_entry hv1).1 e hein
      have hcd1 : convIsDirectWith db uid other e.conversation = true := by
        rw [← isDirectWith_of_entryMatches other hE.2]
        exact hde
      cases hf2 : out2.find? (fun e2 => isDirectWith e2 other) with
      | none =>
          exfalso
          rcases (valid_out_entry hv2).2 e.conversation hE.1 with ⟨e2, he2, hc2⟩
          have hE2 := (valid_out_entry hv2).1 e2 he2
          have hd2 : isDirectWith e2 other = true := by
            rw [isDirectWith_of_entryMatches other hE2.2, hc2]
            exact hcd1
          exact (List.find?_eq_none.mp hf2 e2 he2) hd2
      | some e2 =>
          have hstep2 : directStep db uid other g1 g2 g3 now2 out2 =
              (e2.conversation, db) := by
            unfold directStep
            rw [hf2]
          rw [hstep2] at heq2
          have hres2 : res2 = e2.conversation := congrArg Prod.fst heq2
          have hdb2 : db2 = db := congrArg Prod.snd heq2
          have hde2 : isDirectWith e2 other = true := by
            have h := List.find?_some hf2
            exact h
          have hein2 : e2 ∈ out2 := List.mem_of_find?_eq_some hf2
          have hE2 := (valid_out_entry hv2).1 e2 hein2
          have hcd2 : convIsDirectWith db uid other e2.conversation = true := by
            rw [← isDirectWith_of_entryMatches other hE2.2]
            exact hde2
          have hcc : e.conversation = e2.conversation :=
            huniq _ hE.1 _ hE2.1 hcd1 hcd2
          rw [hres1, hres2, hdb2]
          exact ⟨congrArg Conversation.id hcc, rfl⟩
  | none =>
      have hstep := directStep_none db uid other f1 f2 f3 now1 hf1
      rw [hstep] at heq1
      have hres1 : res1 = newDirectConv f1 now1 := congrArg Prod.fst heq1
      have hdb1 : db1 = directCreatedDB db uid other f1 f2 f3 now1 :=
        congrArg Prod.snd heq1
      subst hdb1
      have hnomatch : ∀ c ∈ memberConversations db uid,
          convIsDirectWith db uid other c = false := by
        intro c hc
        rcases (valid_out_entry hv1).2 c hc with ⟨e, he, hce⟩
        have hE := (valid_out_entry hv1).1 e he
        have hnone := List.find?_eq_none.mp hf1 e he
        rw [isDirectWith_of_entryMatches other hE.2, hce] at hnone
        revert hnone
        cases convIsDirectWith db uid other c <;> simp
      have hmc := memberConversations_created db uid other f1 f2 f3 now1
        hne hfresh1 hfresh2
      cases hf2 : out2.find? (fun e2 => isDirectWith e2 other) with
      | none =>
          exfalso
          have hcNew : newDirectConv f1 now1 ∈
              memberConversations (directCreatedDB db uid other f1 f2 f3 now1) uid := by
            rw [hmc]
            exact List.mem_append.mpr (Or.inr (List.mem_singleton.mpr rfl))
          rcases (valid_out_entry hv2).2 (newDirectConv f1 now1) hcNew with ⟨e2, he2, hce2⟩
          have hE2 := (valid_out_entry hv2).1 e2 he2
          have hd2 : isDirectWith e2 other = true := by
            rw [isDirectWith_of_entryMatches other hE2.2, hce2]
            exact convIsDirectWith_created db uid other f1 f2 f3 now1 hne huser hfresh2
          exact (List.find?_eq_none.mp hf2 e2 he2) hd2
      | some e2 =>
          have hstep2 : directStep (directCreatedDB db uid other f1 f2 f3 now1)
              uid other g1 g2 g3 now2 out2 =
              (e2.conversation, directCreatedDB db uid other f1 f2 f3 now1) := by
            unfold directStep
            rw [hf2]
          rw [hstep2] at heq2
          have hres2 : res2 = e2.conversation := congrArg Prod.fst heq2
          have hdb2 : db2 = directCreatedDB db uid other f1 f2 f3 now1 :=
            congrArg Prod.snd heq2
          have hde2 : isDirectWith e2 other = true := by
            have h := List.find?_some hf2
            exact h
          have hein2 : e2 ∈ out2 := List.mem_of_find?_eq_some hf2
          have hE2 := (valid_out_entry hv2).1 e2 hein2
          have hcd2 : convIsDirectWith (directCreatedDB db uid other f1 f2 f3 now1)
              uid other e2.conversation = true := by
            rw [← isDirectWith_of_entryMatches other hE2.2]
            exact hde2
          have hmem2 := hE2.1
          rw [hmc, List.mem_append] at hmem2
          rcases hmem2 with hold | hnew2
          · exfalso
            have hin : e2.conversation ∈ db.conversations :=
              memberConversations_subset hold
            have hido : ¬ e2.conversation.id = f1 := hfresh1 _ hin
            have hsame : convIsDirectWith (directCreatedDB db uid other f1 f2 f3 now1)
                uid other e2.conversation =
                convIsDirectWith db uid other e2.conversation := by
              unfold convIsDirectWith
              rw [otherMembers_created db uid other f1 f2 f3 now1 _ hido uid]
            rw [hsame, hnomatch _ hold] at hcd2
            cases hcd2
          · have hcn : e2.conversation = newDirectConv f1 now1 :=
              List.mem_singleton.mp hnew2
            rw [hres1, hres2, hcn, hdb2]
            exact ⟨rfl, rfl⟩

def cw6userB : User :=
  { id := "B", email := none, firstName := none, lastName := none,
    profileImageUrl := none, isOnline := false, lastSeen := 0,
    createdAt := 0, updatedAt := 0 }

def cw6db0 : DB :=
  { users := [cw1userA, cw6userB], conversations := [],
    conversationMembers := [], messages := [], messageReadReceipts := [] }

def cw6c1 : Conversation := newDirectConv "d1" 7

def cw6db1 : DB := directCreatedDB cw6db0 "A" "B" "d1" "dm1" "dm2" 7

def cw6e : ConvEntry :=
  { conversation := cw6c1, lastMessage := none, unreadCount := 0,
    otherMembers := [cw6userB] }

/-- Witness for the amended C6: distinct users A and B on an initially
conversation-free store; the first call creates the direct conversation,
the second finds it, so the returned ids agree and the conversation table
is unchanged by the second call. -/
theorem direct_route_idempotent_witness :
    cw6c1.id = cw6c1.id ∧ cw6db1.conversations = cw6db1.conversations :=
  direct_route_idempotent cw6db0 "A" "B" "d1" "dm1" "dm2" "d2" "dm3" "dm4"
    7 9 cw6c1 cw6c1 cw6db1 cw6db1
    (by decide) (by decide) (by decide) (by decide) (by decide)
    ⟨[], ⟨[], ⟨by decide, by decide⟩, List.Forall₂.nil⟩, by decide⟩
    ⟨[cw6e],
     ⟨[cw6c1], ⟨by decide, by decide⟩,
       List.Forall₂.cons
         ⟨rfl, validLastMessage_none (by decide), by decide, by decide⟩
         List.Forall₂.nil⟩,
     by decide⟩
